import Mathlib

/-!
Verification development for the SOLVO authentication and session core.

The backend service code (FastAPI, `app/core/services/*`) is documented in
the repository's development plan and specification but its Python sources
are not part of the checked-in tree; where a definition embeds such a
component it is modelled from the specification and marked as such in its
doc comment.  The frontend TypeScript (`src/frontend/src/services/auth.ts`
and related files) is present and embedded directly.

Time is modelled in whole seconds (`Nat`), rate-limiter quantities as
rationals (`ℚ`).
-/

namespace Solvo

/-! ## LockoutGuard -/

/-- Modelled from the spec: per-user failed-attempt counter and timed lock
state (LockoutState, §3 and §4.2 of the specification; backend
implementation `app/core/services/auth_service.py` is absent from the
tree).  `lockedUntil` is an absolute timestamp in seconds. -/
structure LockoutState where
  failedAttempts : Nat
  lockedUntil : Option Nat
  deriving Repr, DecidableEq

/-- Modelled from the spec: default lockout threshold
(`ACCOUNT_LOCKOUT_ATTEMPTS=5`). -/
def lockoutThreshold : Nat := 5

/-- Modelled from the spec: default lock duration in seconds
(`ACCOUNT_LOCKOUT_MINUTES=15`). -/
def lockDuration : Nat := 15 * 60

/-- Modelled from the spec: the fresh lockout state of a user with no
failed attempts and no active lock. -/
def LockoutState.fresh : LockoutState :=
  { failedAttempts := 0, lockedUntil := none }

/-- Modelled from the spec: `recordFailure(userId)` increments the counter;
if the counter reaches the threshold it sets
`lockedUntil = now + lockDuration`; the counter is NOT reset by locking. -/
def recordFailure (now : Nat) (s : LockoutState) : LockoutState :=
  let c := s.failedAttempts + 1
  if lockoutThreshold ≤ c then
    { failedAttempts := c, lockedUntil := some (now + lockDuration) }
  else
    { failedAttempts := c, lockedUntil := s.lockedUntil }

/-- Modelled from the spec: `recordSuccess(userId)` resets the counter to 0
and clears `lockedUntil`. -/
def recordSuccess (_s : LockoutState) : LockoutState :=
  { failedAttempts := 0, lockedUntil := none }

/-- Modelled from the spec: `checkAllowed(userId)` fails with
`AccountLocked(retryAfter)` when `now < lockedUntil`, otherwise permits. -/
def checkAllowed (now : Nat) (s : LockoutState) : Except Nat Unit :=
  match s.lockedUntil with
  | some u => if now < u then .error (u - now) else .ok ()
  | none => .ok ()

/-- Outcome of a single password-step login attempt as surfaced by the
orchestrator error taxonomy (§7). -/
inductive LoginResult where
  | success
  | accountLocked (retryAfter : Nat)
  | invalidCredentials
  deriving Repr, DecidableEq

/-- Modelled from the spec: one password-step login attempt (§4.8 steps
2–4): the lockout check happens before the password is consulted; on a
wrong password `recordFailure` runs, on a correct one `recordSuccess`. -/
def loginAttempt (now : Nat) (s : LockoutState) (passwordOk : Bool) :
    LoginResult × LockoutState :=
  match checkAllowed now s with
  | .error r => (.accountLocked r, s)
  | .ok () =>
    if passwordOk then (.success, recordSuccess s)
    else (.invalidCredentials, recordFailure now s)

/-- Modelled from the spec: `n` consecutive failed login attempts, all at
time `now` (each one records a failure unless the account is already
locked). -/
def failedAttempts : Nat → Nat → LockoutState → LockoutState
  | 0, _, s => s
  | n + 1, now, s => failedAttempts n now (loginAttempt now s false).2

theorem failedAttempts_succ (n now : Nat) (s : LockoutState) :
    failedAttempts (n + 1) now s = failedAttempts n now (loginAttempt now s false).2 := rfl

theorem failedAttempts_fresh_five (now : Nat) :
    failedAttempts 5 now LockoutState.fresh =
      { failedAttempts := 5, lockedUntil := some (now + lockDuration) } := by
  simp only [failedAttempts, loginAttempt, checkAllowed, LockoutState.fresh, recordFailure,
    lockoutThreshold]
  norm_num

/-- C2: starting from a fresh lockout state, after exactly `lockoutThreshold`
(5) consecutive failed login attempts the next attempt — even with the
correct password — fails with `AccountLocked` carrying a retry-after of
`lockDuration` minus the elapsed time (so exactly `lockDuration` when it
comes immediately, and never more than `lockDuration`), and locking does not
reset the failure counter: it is still `lockoutThreshold` both before and
after the rejected attempt. -/
theorem lockout_after_threshold_failures (now t : Nat) (h1 : now ≤ t)
    (h2 : t < now + lockDuration) :
    (loginAttempt t (failedAttempts lockoutThreshold now LockoutState.fresh) true).1 =
        .accountLocked (now + lockDuration - t) ∧
      now + lockDuration - t ≤ lockDuration ∧
      (failedAttempts lockoutThreshold now LockoutState.fresh).failedAttempts =
        lockoutThreshold ∧
      (loginAttempt t (failedAttempts lockoutThreshold now LockoutState.fresh) true).2.failedAttempts =
        lockoutThreshold := by
  have hthr : lockoutThreshold = 5 := rfl
  rw [hthr, failedAttempts_fresh_five now]
  simp only [loginAttempt, checkAllowed, h2, if_true]
  refine ⟨by trivial, by omega, by trivial, by trivial⟩

/-- Witness for C2 at a concrete input: five failures at time 0, then a
correct-password attempt also at time 0 is rejected with retry-after equal
to the full `lockDuration` (900 seconds) and the counter stays at 5. -/
theorem lockout_after_threshold_failures_witness :
    (loginAttempt 0 (failedAttempts lockoutThreshold 0 LockoutState.fresh) true).1 =
        .accountLocked (0 + lockDuration - 0) ∧
      0 + lockDuration - 0 ≤ lockDuration ∧
      (failedAttempts lockoutThreshold 0 LockoutState.fresh).failedAttempts =
        lockoutThreshold ∧
      (loginAttempt 0 (failedAttempts lockoutThreshold 0 LockoutState.fresh) true).2.failedAttempts =
        lockoutThreshold :=
  lockout_after_threshold_failures 0 0 (by decide) (by decide)

/-- C3: any successful authentication resets the failed-attempt counter to 0
and clears `lockedUntil`, from every lockout state. -/
theorem success_resets_lockout (now : Nat) (s : LockoutState) (pw : Bool)
    (h : (loginAttempt now s pw).1 = .success) :
    (loginAttempt now s pw).2.failedAttempts = 0 ∧
      (loginAttempt now s pw).2.lockedUntil = none := by
  cases hc : checkAllowed now s with
  | error r => simp [loginAttempt, hc] at h
  | ok u =>
    cases pw with
    | false => simp [loginAttempt, hc] at h
    | true => simp [loginAttempt, hc, recordSuccess]

/-- Witness for C3 at a concrete input: a correct-password login from a
state with 3 failures and no lock succeeds and leaves counter 0, no lock. -/
theorem success_resets_lockout_witness :
    (loginAttempt 7 { failedAttempts := 3, lockedUntil := none } true).1 = .success ∧
      (loginAttempt 7 { failedAttempts := 3, lockedUntil := none } true).2.failedAttempts = 0 ∧
      (loginAttempt 7 { failedAttempts := 3, lockedUntil := none } true).2.lockedUntil = none :=
  ⟨by decide, success_resets_lockout 7 { failedAttempts := 3, lockedUntil := none } true (by decide)⟩

/-! ## SessionStore and refresh-token rotation -/

/-- Modelled from the spec: one issued refresh-token grant (Session, §3;
backend `app/core/services/session_service.py` is absent from the tree).
`jti` is the refresh token's unique identifier, `tokenExp` the refresh
token's own expiry, `expiresAt` the session expiry. -/
structure Session where
  userId : Nat
  jti : Nat
  expiresAt : Nat
  tokenExp : Nat
  revoked : Bool
  deriving Repr, DecidableEq

/-- Modelled from the spec: the durable store of sessions. `nextJti` models
the generator of fresh token identifiers (`jti` claims are unique). -/
structure SessionStore where
  sessions : List Session
  nextJti : Nat
  deriving Repr, DecidableEq

/-- Modelled from the spec: refresh-token lifetime,
`JWT_REFRESH_TOKEN_EXPIRE_DAYS=7`, in seconds. -/
def refreshTokenLifetime : Nat := 7 * 24 * 60 * 60

/-- Errors surfaced by session validation during refresh (§7). -/
inductive SessionError where
  | sessionRevoked
  | sessionExpired
  deriving Repr, DecidableEq

/-- Modelled from the spec: `create_session(user_id, refresh_token_jti, ...)`
persists a new session whose expiry is aligned with the refresh token's
expiry; the fresh JTI comes from the store's generator. -/
def create_session (userId tokenExp : Nat) (st : SessionStore) : Nat × SessionStore :=
  (st.nextJti,
    { sessions := { userId := userId, jti := st.nextJti, expiresAt := tokenExp,
                    tokenExp := tokenExp, revoked := false } :: st.sessions,
      nextJti := st.nextJti + 1 })

/-- Modelled from the spec: locate the session for `jti`, require it to be
non-revoked and unexpired, and rotate it to the fresh identifier `newJti`
with new expiry `newExp` (rotation updates the existing session record). -/
def rotateSessions (now newJti newExp : Nat) : List Session → Nat → Except SessionError (List Session)
  | [], _ => .error .sessionRevoked
  | s :: rest, jti =>
    if s.revoked = false ∧ s.jti = jti then
      if s.expiresAt ≤ now then .error .sessionExpired
      else .ok ({ s with jti := newJti, tokenExp := newExp, expiresAt := newExp } :: rest)
    else
      (rotateSessions now newJti newExp rest jti).map (s :: ·)

/-- Modelled from the spec: `refresh_tokens()` validates the session behind
the presented refresh token's JTI before refreshing; on success it issues a
new pair and rotates the session to the new refresh JTI, invalidating the
old one.  Returns the new refresh JTI and the updated store. -/
def refresh_tokens (now jti : Nat) (st : SessionStore) :
    Except SessionError (Nat × SessionStore) :=
  (rotateSessions now st.nextJti (now + refreshTokenLifetime) st.sessions jti).map
    (fun l => (st.nextJti, { sessions := l, nextJti := st.nextJti + 1 }))

/-- Modelled from the spec: `revoke_session_by_refresh_token(jti)` marks the
session(s) carrying `jti` revoked (used by logout). -/
def revoke_session_by_refresh_token (jti : Nat) (st : SessionStore) : SessionStore :=
  { sessions := st.sessions.map (fun s => if s.jti = jti then { s with revoked := true } else s),
    nextJti := st.nextJti }

/-- An operation on the session store: create a session, refresh (rotate) a
grant, or revoke by refresh JTI. -/
inductive SessionOp where
  | create (userId tokenExp : Nat)
  | refresh (now jti : Nat)
  | revoke (jti : Nat)
  deriving Repr, DecidableEq

/-- Apply one store operation; a failed refresh leaves the store unchanged. -/
def applyOp : SessionOp → SessionStore → SessionStore
  | .create uid exp2, st => (create_session uid exp2 st).2
  | .refresh now jti, st =>
    match refresh_tokens now jti st with
    | .ok (_, st2) => st2
    | .error _ => st
  | .revoke jti, st => revoke_session_by_refresh_token jti st

/-- The empty session store. -/
def SessionStore.empty : SessionStore :=
  { sessions := [], nextJti := 0 }

/-- Two sessions do not share a JTI while both are non-revoked. -/
def JtiUnique (a b : Session) : Prop :=
  a.revoked = false → b.revoked = false → a.jti ≠ b.jti

instance (a b : Session) : Decidable (JtiUnique a b) := by
  unfold JtiUnique
  infer_instance

/-- Store invariant: issued JTIs are below the freshness generator, every
session's expiry is bounded by its refresh token's expiry, and at most one
non-revoked session exists per refresh-token JTI. -/
def StoreInv (st : SessionStore) : Prop :=
  (∀ s ∈ st.sessions, s.jti < st.nextJti) ∧
  (∀ s ∈ st.sessions, s.expiresAt ≤ s.tokenExp) ∧
  st.sessions.Pairwise JtiUnique

/-- States reachable from the empty store by store operations. -/
inductive Reachable : SessionStore → Prop
  | empty : Reachable SessionStore.empty
  | step (op : SessionOp) {st : SessionStore} : Reachable st → Reachable (applyOp op st)

theorem rotateSessions_mem (now newJti newExp : Nat) (l l2 : List Session) (jti : Nat)
    (h : rotateSessions now newJti newExp l jti = .ok l2) :
    ∀ b ∈ l2, b ∈ l ∨
      (b.jti = newJti ∧ b.expiresAt = newExp ∧ b.tokenExp = newExp ∧ b.revoked = false) := by
  induction l generalizing l2 with
  | nil => simp [rotateSessions] at h
  | cons s rest ih =>
    by_cases hm : s.revoked = false ∧ s.jti = jti
    · rw [rotateSessions, if_pos hm] at h
      by_cases he : s.expiresAt ≤ now
      · rw [if_pos he] at h; exact absurd h (by simp)
      · rw [if_neg he] at h
        injection h with h
        intro b hb
        rw [← h] at hb
        rcases List.mem_cons.mp hb with hb | hb
        · exact Or.inr (by subst hb; exact ⟨rfl, rfl, rfl, hm.1⟩)
        · exact Or.inl (List.mem_cons_of_mem s hb)
    · rw [rotateSessions, if_neg hm] at h
      cases hr : rotateSessions now newJti newExp rest jti with
      | error e => rw [hr] at h; exact absurd h (by simp [Except.map])
      | ok l2x =>
        rw [hr] at h
        simp only [Except.map] at h
        injection h with h
        intro b hb
        rw [← h] at hb
        rcases List.mem_cons.mp hb with hb | hb
        · exact Or.inl (by rw [hb]; exact List.mem_cons_self s rest)
        · rcases ih l2x hr b hb with h1 | h1
          · exact Or.inl (List.mem_cons_of_mem s h1)
          · exact Or.inr h1

theorem rotateSessions_found (now newJti newExp : Nat) (l l2 : List Session) (jti : Nat)
    (h : rotateSessions now newJti newExp l jti = .ok l2) :
    ∃ s ∈ l, s.revoked = false ∧ s.jti = jti := by
  induction l generalizing l2 with
  | nil => simp [rotateSessions] at h
  | cons s rest ih =>
    by_cases hm : s.revoked = false ∧ s.jti = jti
    · exact ⟨s, List.mem_cons_self s rest, hm⟩
    · rw [rotateSessions, if_neg hm] at h
      cases hr : rotateSessions now newJti newExp rest jti with
      | error e => rw [hr] at h; exact absurd h (by simp [Except.map])
      | ok l2x =>
        obtain ⟨s2, hs2, h2⟩ := ih l2x hr
        exact ⟨s2, List.mem_cons_of_mem s hs2, h2⟩

theorem rotateSessions_no_active_jti (now newJti newExp : Nat) (l l2 : List Session) (jti : Nat)
    (hN : ∀ s ∈ l, s.jti < newJti)
    (hp : l.Pairwise JtiUnique)
    (h : rotateSessions now newJti newExp l jti = .ok l2) :
    ∀ b ∈ l2, b.revoked = false → b.jti ≠ jti := by
  induction l generalizing l2 with
  | nil => simp [rotateSessions] at h
  | cons s rest ih =>
    rcases List.pairwise_cons.mp hp with ⟨hrel, hprest⟩
    by_cases hm : s.revoked = false ∧ s.jti = jti
    · rw [rotateSessions, if_pos hm] at h
      by_cases he : s.expiresAt ≤ now
      · rw [if_pos he] at h; exact absurd h (by simp)
      · rw [if_neg he] at h
        injection h with h
        intro b hb hbr
        rw [← h] at hb
        rcases List.mem_cons.mp hb with hb | hb
        · have hj : s.jti < newJti := hN s (List.mem_cons_self s rest)
          rw [hb]
          simp only []
          omega
        · have := hrel b hb hm.1 hbr
          rw [hm.2] at this
          exact fun hc => this hc.symm
    · rw [rotateSessions, if_neg hm] at h
      cases hr : rotateSessions now newJti newExp rest jti with
      | error e => rw [hr] at h; exact absurd h (by simp [Except.map])
      | ok l2x =>
        rw [hr] at h
        simp only [Except.map] at h
        injection h with h
        intro b hb hbr
        rw [← h] at hb
        rcases List.mem_cons.mp hb with hb | hb
        · rw [hb]
          intro hc
          exact hm ⟨by rw [← hb]; exact hbr, by rw [← hb] at hc ⊢; exact hc⟩
        · exact ih l2x (fun x hx => hN x (List.mem_cons_of_mem s hx)) hprest hr b hb hbr

theorem rotateSessions_not_found (now newJti newExp : Nat) (l : List Session) (jti : Nat)
    (hno : ∀ s ∈ l, s.revoked = false → s.jti ≠ jti) :
    rotateSessions now newJti newExp l jti = .error .sessionRevoked := by
  induction l with
  | nil => rfl
  | cons s rest ih =>
    have hm : ¬(s.revoked = false ∧ s.jti = jti) := by
      intro hc
      exact hno s (List.mem_cons_self s rest) hc.1 hc.2
    rw [rotateSessions, if_neg hm,
      ih (fun x hx => hno x (List.mem_cons_of_mem s hx))]
    rfl

/-- C1: refresh-token rotation prevents replay.  From any store satisfying
the invariant, a successful refresh presenting JTI `jti` rotates the
session to a genuinely new JTI, and any later refresh presenting the
superseded `jti` fails with `SessionRevoked` (issuing no new pair),
whatever time it happens at. -/
theorem refresh_rotation_prevents_replay (st st2 : SessionStore)
    (now now2 jti newJti : Nat)
    (hinv : StoreInv st)
    (h : refresh_tokens now jti st = .ok (newJti, st2)) :
    newJti ≠ jti ∧ refresh_tokens now2 jti st2 = .error .sessionRevoked := by
  obtain ⟨hN, hexp, hp⟩ := hinv
  unfold refresh_tokens at h
  cases hr : rotateSessions now st.nextJti (now + refreshTokenLifetime) st.sessions jti with
  | error e => rw [hr] at h; exact absurd h (by simp [Except.map])
  | ok l2 =>
    rw [hr] at h
    simp only [Except.map] at h
    injection h with h
    have hpair : newJti = st.nextJti ∧ st2 = { sessions := l2, nextJti := st.nextJti + 1 } := by
      have h1 := congrArg Prod.fst h
      have h2 := congrArg Prod.snd h
      exact ⟨h1.symm, h2.symm⟩
    obtain ⟨hj, hst2⟩ := hpair
    obtain ⟨s, hsmem, hsr, hsj⟩ := rotateSessions_found _ _ _ _ _ _ hr
    have hjlt : jti < st.nextJti := by rw [← hsj]; exact hN s hsmem
    constructor
    · omega
    · have hno : ∀ b ∈ l2, b.revoked = false → b.jti ≠ jti :=
        rotateSessions_no_active_jti _ _ _ _ _ _ hN hp hr
      rw [hst2]
      unfold refresh_tokens
      rw [rotateSessions_not_found _ _ _ _ _ hno]
      rfl

/-- Witness for C1 at a concrete input: a store holding one live session
with JTI 0; refreshing with JTI 0 succeeds and yields JTI 1, after which
refreshing again with JTI 0 fails with `SessionRevoked`. -/
theorem refresh_rotation_prevents_replay_witness :
    (1 : Nat) ≠ 0 ∧
      refresh_tokens 20 0
          { sessions := [{ userId := 1, jti := 1, expiresAt := 604810, tokenExp := 604810,
                           revoked := false }],
            nextJti := 2 } =
        .error .sessionRevoked :=
  refresh_rotation_prevents_replay
    { sessions := [{ userId := 1, jti := 0, expiresAt := 100, tokenExp := 100,
                     revoked := false }],
      nextJti := 1 }
    { sessions := [{ userId := 1, jti := 1, expiresAt := 604810, tokenExp := 604810,
                     revoked := false }],
      nextJti := 2 }
    10 20 0 1
    (by refine ⟨?_, ?_, ?_⟩ <;> decide)
    (by rfl)

theorem rotateSessions_pairwise (now newJti newExp : Nat) (l l2 : List Session) (jti : Nat)
    (hN : ∀ s ∈ l, s.jti < newJti)
    (hp : l.Pairwise JtiUnique)
    (h : rotateSessions now newJti newExp l jti = .ok l2) :
    l2.Pairwise JtiUnique := by
  induction l generalizing l2 with
  | nil => simp [rotateSessions] at h
  | cons s rest ih =>
    rcases List.pairwise_cons.mp hp with ⟨hrel, hprest⟩
    by_cases hm : s.revoked = false ∧ s.jti = jti
    · rw [rotateSessions, if_pos hm] at h
      by_cases he : s.expiresAt ≤ now
      · rw [if_pos he] at h; exact absurd h (by simp)
      · rw [if_neg he] at h
        injection h with h
        rw [← h]
        refine List.pairwise_cons.mpr ⟨?_, hprest⟩
        intro b hb _ _
        have := hN b (List.mem_cons_of_mem s hb)
        simp only []
        omega
    · rw [rotateSessions, if_neg hm] at h
      cases hr : rotateSessions now newJti newExp rest jti with
      | error e => rw [hr] at h; exact absurd h (by simp [Except.map])
      | ok l2x =>
        rw [hr] at h
        simp only [Except.map] at h
        injection h with h
        rw [← h]
        refine List.pairwise_cons.mpr
          ⟨?_, ih l2x (fun x hx => hN x (List.mem_cons_of_mem s hx)) hprest hr⟩
        intro b hb hs hb2
        rcases rotateSessions_mem _ _ _ _ _ _ hr b hb with hbm | hbm
        · exact hrel b hbm hs hb2
        · have := hN s (List.mem_cons_self s rest)
          omega

theorem storeInv_create (uid exp2 : Nat) (st : SessionStore) (h : StoreInv st) :
    StoreInv (create_session uid exp2 st).2 := by
  obtain ⟨hN, hexp, hp⟩ := h
  refine ⟨?_, ?_, ?_⟩
  · intro s hs
    rcases List.mem_cons.mp hs with hs | hs
    · rw [hs]; simp [create_session]
    · have := hN s hs; simp only [create_session]; omega
  · intro s hs
    rcases List.mem_cons.mp hs with hs | hs
    · rw [hs]
    · exact hexp s hs
  · refine List.pairwise_cons.mpr ⟨?_, hp⟩
    intro b hb _ _
    have := hN b hb
    simp only []
    omega

theorem storeInv_refresh (now jti : Nat) (st st2 : SessionStore) (newJti : Nat)
    (h : StoreInv st)
    (hr : refresh_tokens now jti st = .ok (newJti, st2)) :
    StoreInv st2 := by
  obtain ⟨hN, hexp, hp⟩ := h
  unfold refresh_tokens at hr
  cases hrot : rotateSessions now st.nextJti (now + refreshTokenLifetime) st.sessions jti with
  | error e => rw [hrot] at hr; exact absurd hr (by simp [Except.map])
  | ok l2 =>
    rw [hrot] at hr
    simp only [Except.map] at hr
    injection hr with hr
    have hst2 : st2 = { sessions := l2, nextJti := st.nextJti + 1 } :=
      (congrArg Prod.snd hr).symm
    rw [hst2]
    refine ⟨?_, ?_, ?_⟩
    · intro s hs
      rcases rotateSessions_mem _ _ _ _ _ _ hrot s hs with hm | hm
      · have := hN s hm; simp only []; omega
      · simp only []; omega
    · intro s hs
      rcases rotateSessions_mem _ _ _ _ _ _ hrot s hs with hm | hm
      · exact hexp s hm
      · rw [hm.2.1, hm.2.2.1]
    · exact rotateSessions_pairwise _ _ _ _ _ _ hN hp hrot

theorem storeInv_revoke (jti : Nat) (st : SessionStore) (h : StoreInv st) :
    StoreInv (revoke_session_by_refresh_token jti st) := by
  obtain ⟨hN, hexp, hp⟩ := h
  unfold StoreInv revoke_session_by_refresh_token
  refine ⟨?_, ?_, ?_⟩
  · intro s hs
    simp only [List.mem_map] at hs
    obtain ⟨a, ha, hfa⟩ := hs
    have h1 := hN a ha
    by_cases hj : a.jti = jti
    · rw [if_pos hj] at hfa; rw [← hfa]; exact h1
    · rw [if_neg hj] at hfa; rw [← hfa]; exact h1
  · intro s hs
    simp only [List.mem_map] at hs
    obtain ⟨a, ha, hfa⟩ := hs
    have h1 := hexp a ha
    by_cases hj : a.jti = jti
    · rw [if_pos hj] at hfa; rw [← hfa]; exact h1
    · rw [if_neg hj] at hfa; rw [← hfa]; exact h1
  · refine List.Pairwise.map _ ?_ hp
    intro a b hab
    unfold JtiUnique
    intro ha hb
    by_cases hja : a.jti = jti
    · rw [if_pos hja] at ha
      simp at ha
    · rw [if_neg hja] at ha ⊢
      by_cases hjb : b.jti = jti
      · rw [if_pos hjb] at hb
        simp at hb
      · rw [if_neg hjb] at hb ⊢
        exact hab ha hb

theorem storeInv_applyOp (op : SessionOp) (st : SessionStore) (h : StoreInv st) :
    StoreInv (applyOp op st) := by
  cases op with
  | create uid exp2 => exact storeInv_create uid exp2 st h
  | refresh now jti =>
    simp only [applyOp]
    cases hr : refresh_tokens now jti st with
    | error e => exact h
    | ok p =>
      obtain ⟨newJti, st2⟩ := p
      exact storeInv_refresh now jti st st2 newJti h hr
  | revoke jti => exact storeInv_revoke jti st h

/-- C5: in every reachable state of the `SessionStore` there is at most one
non-revoked session per refresh-token JTI and every session's expiry is at
most its refresh token's expiry, and every operation (create,
refresh/rotate, revoke) preserves both. -/
theorem session_store_reachable_invariant (st : SessionStore) (h : Reachable st) :
    StoreInv st ∧ ∀ op : SessionOp, StoreInv (applyOp op st) := by
  have hbase : StoreInv st := by
    induction h with
    | empty => exact ⟨by simp [SessionStore.empty], by simp [SessionStore.empty],
        by simp [SessionStore.empty]⟩
    | step op hst ih => exact storeInv_applyOp op _ ih
  exact ⟨hbase, fun op => storeInv_applyOp op st hbase⟩

/-- Witness for C5 at a concrete input: the state reached from the empty
store by one create followed by one refresh satisfies the invariant, and
every further operation preserves it. -/
theorem session_store_reachable_invariant_witness :
    StoreInv (applyOp (.refresh 10 0) (applyOp (.create 1 100) SessionStore.empty)) ∧
      ∀ op : SessionOp,
        StoreInv (applyOp op (applyOp (.refresh 10 0) (applyOp (.create 1 100) SessionStore.empty))) :=
  session_store_reachable_invariant _
    (Reachable.step (.refresh 10 0) (Reachable.step (.create 1 100) Reachable.empty))

/-! ## TwoFactorService: backup codes -/

/-- Modelled from the spec: one stored backup code — its hash and whether it
has been consumed (backend `two_factor_service.py` is absent from the
tree). -/
structure BackupCodeEntry where
  codeHash : Nat
  consumed : Bool
  deriving Repr, DecidableEq

/-- Modelled from the spec: backup codes are stored individually hashed;
the hash itself is a deterministic digest of the code string (a simple
fold standing in for the cryptographic hash). -/
def hash_backup_code (c : String) : Nat :=
  c.data.foldl (fun h ch => h * 31 + ch.toNat) 5381

/-- Modelled from the spec: `verify_backup_code` matches the submitted hash
against the stored unconsumed entries; on the first match it marks that
specific entry permanently consumed; with no match it fails. -/
def consume_backup_code : List BackupCodeEntry → Nat → Option (List BackupCodeEntry)
  | [], _ => none
  | e :: rest, h =>
    if e.consumed = false ∧ e.codeHash = h then
      some ({ e with consumed := true } :: rest)
    else
      (consume_backup_code rest h).map (e :: ·)

/-- Modelled from the spec: `verify_backup_code(user_id, backup_code)` —
hash the submitted code and consume the matching stored entry. -/
def verify_backup_code (entries : List BackupCodeEntry) (c : String) :
    Option (List BackupCodeEntry) :=
  consume_backup_code entries (hash_backup_code c)

theorem consume_backup_code_none (l : List BackupCodeEntry) (h : Nat)
    (hno : ∀ e ∈ l, e.consumed = false → e.codeHash ≠ h) :
    consume_backup_code l h = none := by
  induction l with
  | nil => rfl
  | cons e rest ih =>
    have hm : ¬(e.consumed = false ∧ e.codeHash = h) := by
      intro hc
      exact hno e (List.mem_cons_self e rest) hc.1 hc.2
    rw [consume_backup_code, if_neg hm,
      ih (fun x hx => hno x (List.mem_cons_of_mem e hx))]
    rfl

theorem consume_backup_code_no_rematch (l l2 : List BackupCodeEntry) (h : Nat)
    (hnodup : (l.map BackupCodeEntry.codeHash).Nodup)
    (hc : consume_backup_code l h = some l2) :
    ∀ e ∈ l2, e.consumed = false → e.codeHash ≠ h := by
  induction l generalizing l2 with
  | nil => simp [consume_backup_code] at hc
  | cons e rest ih =>
    rw [List.map_cons] at hnodup
    rcases List.nodup_cons.mp hnodup with ⟨hnotin, hnrest⟩
    by_cases hm : e.consumed = false ∧ e.codeHash = h
    · rw [consume_backup_code, if_pos hm] at hc
      injection hc with hc
      intro x hx hxc
      rw [← hc] at hx
      rcases List.mem_cons.mp hx with hx | hx
      · rw [hx] at hxc
        simp at hxc
      · intro hxh
        exact hnotin (by
          rw [hm.2, ← hxh]
          exact List.mem_map.mpr ⟨x, hx, rfl⟩)
    · rw [consume_backup_code, if_neg hm] at hc
      cases hr : consume_backup_code rest h with
      | none => rw [hr] at hc; exact absurd hc (by simp)
      | some l2x =>
        rw [hr] at hc
        simp only [Option.map] at hc
        injection hc with hc
        intro x hx hxc
        rw [← hc] at hx
        rcases List.mem_cons.mp hx with hx | hx
        · intro hxh
          rw [hx] at hxc hxh
          exact hm ⟨hxc, hxh⟩
        · exact ih l2x hnrest hr x hx hxc

/-- C4: backup codes are single-use.  If the stored backup-code hashes are
pairwise distinct (the generated set has no duplicates), then once a
submitted code has been accepted and consumed, every later submission of
the same code against the resulting stored set is rejected. -/
theorem backup_code_single_use (entries entries2 : List BackupCodeEntry) (c : String)
    (hnodup : (entries.map BackupCodeEntry.codeHash).Nodup)
    (h : verify_backup_code entries c = some entries2) :
    verify_backup_code entries2 c = none :=
  consume_backup_code_none entries2 (hash_backup_code c)
    (consume_backup_code_no_rematch entries entries2 (hash_backup_code c) hnodup h)

/-- Witness for C4 at a concrete input: a stored set of two distinct
unconsumed codes; submitting the first code consumes it, and submitting it
again is rejected. -/
theorem backup_code_single_use_witness :
    verify_backup_code
        [{ codeHash := hash_backup_code "AAAA-0001", consumed := false },
         { codeHash := hash_backup_code "BBBB-0002", consumed := false }] "AAAA-0001" =
      some
        [{ codeHash := hash_backup_code "AAAA-0001", consumed := true },
         { codeHash := hash_backup_code "BBBB-0002", consumed := false }] ∧
      verify_backup_code
          [{ codeHash := hash_backup_code "AAAA-0001", consumed := true },
           { codeHash := hash_backup_code "BBBB-0002", consumed := false }] "AAAA-0001" =
        none :=
  ⟨by rfl,
    backup_code_single_use
      [{ codeHash := hash_backup_code "AAAA-0001", consumed := false },
       { codeHash := hash_backup_code "BBBB-0002", consumed := false }]
      [{ codeHash := hash_backup_code "AAAA-0001", consumed := true },
       { codeHash := hash_backup_code "BBBB-0002", consumed := false }]
      "AAAA-0001" (by decide) (by rfl)⟩

/-! ## TwoFactorService: TOTP verification -/

/-- Modelled from the spec: the TOTP time-step interval in seconds. -/
def totpInterval : Nat := 30

/-- Modelled from the spec: the time-step counter for a given time. -/
def totpStep (t : Nat) : Nat := t / totpInterval

/-- Modelled from the spec: `_verify_totp(secret, code)` verifies a
submitted code with `valid_window=1` (backend `two_factor_service.py` is
absent from the tree): the code is compared against the codes of the
current step and one step in either direction.  `totpAt` abstracts the
code-derivation function (HMAC-based in the implementation). -/
def verify_totp (totpAt : Nat → Nat → Nat) (secret code t : Nat) : Bool :=
  (code == totpAt secret (totpStep t - 1)) ||
  (code == totpAt secret (totpStep t)) ||
  (code == totpAt secret (totpStep t + 1))

/-- C6: for every submission time at least one interval past the epoch, a
submitted one-time code is accepted if and only if it is the code the
secret yields at the time step of some instant within one interval (30 s)
of the submission time in either direction; codes outside that window are
rejected. -/
theorem totp_skew_window (totpAt : Nat → Nat → Nat) (secret code t : Nat)
    (ht : totpInterval ≤ t) :
    verify_totp totpAt secret code t = true ↔
      ∃ u : Nat, t - totpInterval ≤ u ∧ u ≤ t + totpInterval ∧
        code = totpAt secret (totpStep u) := by
  have ht30 : 30 ≤ t := ht
  simp only [verify_totp, totpStep, totpInterval, Bool.or_eq_true, beq_iff_eq]
  constructor
  · rintro ((h | h) | h)
    · have e1 : (t - 30) / 30 = t / 30 - 1 := by omega
      exact ⟨t - 30, le_refl _, by omega, by rw [e1]; exact h⟩
    · exact ⟨t, by omega, by omega, h⟩
    · have e1 : (t + 30) / 30 = t / 30 + 1 := by omega
      exact ⟨t + 30, by omega, le_refl _, by rw [e1]; exact h⟩
  · rintro ⟨u, h1, h2, h3⟩
    have hcases : u / 30 = t / 30 - 1 ∨ u / 30 = t / 30 ∨ u / 30 = t / 30 + 1 := by
      omega
    rcases hcases with hc | hc | hc <;> rw [hc] at h3
    · exact Or.inl (Or.inl h3)
    · exact Or.inl (Or.inr h3)
    · exact Or.inr h3

/-- Witness for C6 at a concrete input: with a toy derivation function, the
code of the previous step is accepted at time 90 and the window
characterization holds there. -/
theorem totp_skew_window_witness :
    totpInterval ≤ 90 ∧
      (verify_totp (fun s st => (s + st) % 1000000) 12345 12347 90 = true ↔
        ∃ u : Nat, 90 - totpInterval ≤ u ∧ u ≤ 90 + totpInterval ∧
          12347 = (fun s st => (s + st) % 1000000) 12345 (totpStep u)) :=
  ⟨by decide, totp_skew_window (fun s st => (s + st) % 1000000) 12345 12347 90 (by decide)⟩

/-! ## RateLimiter -/

/-- Modelled from the spec: a token bucket keyed by (client, route class):
token count and last-refill timestamp (backend `middleware/rate_limit.py`
is absent from the tree).  Time and tokens are rationals. -/
structure RateLimitBucket where
  tokens : ℚ
  lastRefill : ℚ
  deriving Repr, DecidableEq

/-- Modelled from the spec: authentication route-class capacity (10). -/
def authCapacity : ℚ := 10

/-- Modelled from the spec: authentication route-class refill period in
seconds (10 tokens per 60 seconds). -/
def authRefillPeriod : ℚ := 60

/-- Modelled from the spec: refill rate in tokens per second. -/
def authRefillRate : ℚ := authCapacity / authRefillPeriod

/-- Modelled from the spec: lazy refill — add tokens proportional to the
elapsed time since the last refill, capped at capacity, never retroactive. -/
def refillBucket (now : ℚ) (b : RateLimitBucket) : RateLimitBucket :=
  { tokens := min authCapacity (b.tokens + authRefillRate * max 0 (now - b.lastRefill)),
    lastRefill := now }

/-- Outcome of a rate-limit check: admitted with remaining count, or
rejected (HTTP 429) with a retry-after duration. -/
inductive RateLimitDecision where
  | allowed (remaining : ℚ)
  | rejected (retryAfter : ℚ)
  deriving Repr, DecidableEq

/-- Whether a decision admits the request. -/
def RateLimitDecision.isAllowed : RateLimitDecision → Bool
  | .allowed _ => true
  | .rejected _ => false

/-- Modelled from the spec: on each request, refill lazily then withdraw one
token; on exhaustion reject with a retry-after computed from the refill
rate. -/
def rate_limit_request (now : ℚ) (b : RateLimitBucket) :
    RateLimitDecision × RateLimitBucket :=
  if 1 ≤ (refillBucket now b).tokens then
    (.allowed ((refillBucket now b).tokens - 1),
      { tokens := (refillBucket now b).tokens - 1, lastRefill := now })
  else
    (.rejected ((1 - (refillBucket now b).tokens) / authRefillRate), refillBucket now b)

/-- A bucket at full capacity. -/
def fullBucket (t : ℚ) : RateLimitBucket :=
  { tokens := authCapacity, lastRefill := t }

/-- The bucket after `n` requests, all at time `now`. -/
def requestN : Nat → ℚ → RateLimitBucket → RateLimitBucket
  | 0, _, b => b
  | n + 1, now, b => (rate_limit_request now (requestN n now b)).2

theorem refillBucket_zero_elapsed (x : ℚ) (hx : x ≤ authCapacity) :
    refillBucket 0 { tokens := x, lastRefill := 0 } = { tokens := x, lastRefill := 0 } := by
  simp only [refillBucket, RateLimitBucket.mk.injEq, and_true]
  norm_num
  exact hx

theorem rate_limit_step_eval (x : ℚ) (hx : x ≤ authCapacity) :
    rate_limit_request 0 { tokens := x, lastRefill := 0 } =
      if 1 ≤ x then
        (.allowed (x - 1), { tokens := x - 1, lastRefill := 0 })
      else
        (.rejected ((1 - x) / authRefillRate), { tokens := x, lastRefill := 0 }) := by
  unfold rate_limit_request
  rw [refillBucket_zero_elapsed x hx]

theorem requestN_fullBucket (k : Nat) (hk : k ≤ 10) :
    requestN k 0 (fullBucket 0) = { tokens := 10 - (k : ℚ), lastRefill := 0 } := by
  induction k with
  | zero => simp [requestN, fullBucket, authCapacity]
  | succ n ih =>
    have hn : (n : ℚ) ≤ 9 := by exact_mod_cast (by omega : n ≤ 9)
    have hn0 : (0 : ℚ) ≤ (n : ℚ) := Nat.cast_nonneg n
    rw [requestN, ih (by omega),
      rate_limit_step_eval _ (by simp only [authCapacity]; linarith),
      if_pos (by linarith)]
    simp only []
    congr 1
    push_cast
    ring

theorem refillBucket_bounds (now : ℚ) (b : RateLimitBucket) (h0 : 0 ≤ b.tokens) :
    0 ≤ (refillBucket now b).tokens ∧ (refillBucket now b).tokens ≤ authCapacity := by
  unfold refillBucket
  constructor
  · apply le_min
    · norm_num [authCapacity]
    · have hr : (0:ℚ) ≤ authRefillRate * max 0 (now - b.lastRefill) := by
        apply mul_nonneg
        · norm_num [authRefillRate, authCapacity, authRefillPeriod]
        · exact le_max_left 0 _
      linarith
  · exact min_le_left _ _

/-- C7: for the authentication-class bucket (capacity 10, refill 10 per 60
seconds), 10 rapid requests from a full bucket all succeed and the 11th in
the same instant is rejected with a retry-after of 6 seconds, which lies
between 0 and the refill period; and for every request the resulting token
count stays within `[0, capacity]` whenever it started there. -/
theorem auth_rate_limit_burst (now : ℚ) (b : RateLimitBucket)
    (h0 : 0 ≤ b.tokens) (h1 : b.tokens ≤ authCapacity) :
    (∀ k : Fin 10,
        ((rate_limit_request 0 (requestN k.val 0 (fullBucket 0))).1).isAllowed = true) ∧
      (rate_limit_request 0 (requestN 10 0 (fullBucket 0))).1 = .rejected 6 ∧
      (0:ℚ) ≤ 6 ∧ (6:ℚ) ≤ authRefillPeriod ∧
      0 ≤ (rate_limit_request now b).2.tokens ∧
      (rate_limit_request now b).2.tokens ≤ authCapacity := by
  obtain ⟨g0, g1⟩ := refillBucket_bounds now b h0
  refine ⟨?_, ?_, by norm_num, by norm_num [authRefillPeriod], ?_, ?_⟩
  · intro k
    have hlt := k.isLt
    have hk9 : (k.val : ℚ) ≤ 9 := by exact_mod_cast (by omega : k.val ≤ 9)
    have hk0 : (0 : ℚ) ≤ (k.val : ℚ) := Nat.cast_nonneg _
    rw [requestN_fullBucket k.val (by omega),
      rate_limit_step_eval _ (by simp only [authCapacity]; linarith),
      if_pos (by linarith)]
    rfl
  · rw [requestN_fullBucket 10 (le_refl 10)]
    norm_num
    rw [rate_limit_step_eval 0 (by norm_num [authCapacity]), if_neg (by norm_num)]
    norm_num [authRefillRate, authCapacity, authRefillPeriod]
  · unfold rate_limit_request
    by_cases hc : 1 ≤ (refillBucket now b).tokens
    · rw [if_pos hc]
      simp only []
      linarith
    · rw [if_neg hc]
      exact g0
  · unfold rate_limit_request
    by_cases hc : 1 ≤ (refillBucket now b).tokens
    · rw [if_pos hc]
      simp only []
      linarith
    · rw [if_neg hc]
      exact g1

/-- Witness for C7 at a concrete input: the full authentication bucket at
time 0 satisfies the hypotheses, so the burst behaviour and the bounds on
the resulting token count hold there. -/
theorem auth_rate_limit_burst_witness :
    (∀ k : Fin 10,
        ((rate_limit_request 0 (requestN k.val 0 (fullBucket 0))).1).isAllowed = true) ∧
      (rate_limit_request 0 (requestN 10 0 (fullBucket 0))).1 = .rejected 6 ∧
      (0:ℚ) ≤ 6 ∧ (6:ℚ) ≤ authRefillPeriod ∧
      0 ≤ (rate_limit_request 0 (fullBucket 0)).2.tokens ∧
      (rate_limit_request 0 (fullBucket 0)).2.tokens ≤ authCapacity :=
  auth_rate_limit_burst 0 (fullBucket 0) (by norm_num [fullBucket, authCapacity])
    (by norm_num [fullBucket])

/-! ## TwoFactorService: backup-code regeneration -/

/-- Modelled from the spec: per-user two-factor configuration — active
secret, enabled flag, stored backup-code entries. -/
structure TwoFactorConfig where
  secret : Nat
  enabled : Bool
  backupCodes : List BackupCodeEntry
  deriving Repr, DecidableEq

/-- Errors surfaced by two-factor operations (§7). -/
inductive TwoFactorError where
  | twoFactorInvalid
  | notEnabled
  deriving Repr, DecidableEq

/-- Modelled from the spec: `regenerate_backup_codes(user, code)` requires
2FA to be enabled and a valid current one-time code; on success it replaces
all previous backup codes with a fresh set (given here by its hashes) and
returns the fresh codes (backend `two_factor_service.py` is absent from the
tree). -/
def regenerate_backup_codes (totpAt : Nat → Nat → Nat) (cfg : TwoFactorConfig)
    (code t : Nat) (freshHashes : List Nat) :
    Except TwoFactorError (TwoFactorConfig × List Nat) :=
  if cfg.enabled = false then
    .error .notEnabled
  else if verify_totp totpAt cfg.secret code t then
    .ok
      ({ cfg with
          backupCodes := freshHashes.map (fun h => { codeHash := h, consumed := false }) },
        freshHashes)
  else
    .error .twoFactorInvalid

/-- C8: for a user with 2FA enabled, regenerating backup codes fails with
`TwoFactorInvalid` unless the submitted current one-time code is valid; and
whenever it succeeds, the issued set is exactly the fresh set, the stored
codes are exactly the fresh set, and every code outside the fresh set — in
particular every previous backup code — is rejected afterwards. -/
theorem regenerate_backup_codes_requires_totp (totpAt : Nat → Nat → Nat)
    (cfg : TwoFactorConfig) (code t : Nat) (fresh : List Nat)
    (henabled : cfg.enabled = true) :
    (verify_totp totpAt cfg.secret code t = false →
        regenerate_backup_codes totpAt cfg code t fresh = .error .twoFactorInvalid) ∧
      ∀ (cfg2 : TwoFactorConfig) (issued : List Nat),
        regenerate_backup_codes totpAt cfg code t fresh = .ok (cfg2, issued) →
          verify_totp totpAt cfg.secret code t = true ∧ issued = fresh ∧
            cfg2.backupCodes = fresh.map (fun h => { codeHash := h, consumed := false }) ∧
            ∀ h2 : Nat, h2 ∉ fresh → consume_backup_code cfg2.backupCodes h2 = none := by
  have hne : ¬cfg.enabled = false := by rw [henabled]; simp
  constructor
  · intro hv
    unfold regenerate_backup_codes
    rw [if_neg hne, hv]
    rfl
  · intro cfg2 issued hok
    unfold regenerate_backup_codes at hok
    rw [if_neg hne] at hok
    by_cases hv : verify_totp totpAt cfg.secret code t = true
    · rw [hv] at hok
      simp only [if_true] at hok
      injection hok with hok
      have hcfg2 : cfg2 = { cfg with
          backupCodes := fresh.map (fun h => { codeHash := h, consumed := false }) } :=
        (congrArg Prod.fst hok).symm
      have hissued : issued = fresh := (congrArg Prod.snd hok).symm
      refine ⟨hv, hissued, by rw [hcfg2], ?_⟩
      intro h2 hh2
      rw [hcfg2]
      apply consume_backup_code_none
      intro e he _
      simp only [List.mem_map] at he
      obtain ⟨a, ha, hae⟩ := he
      rw [← hae]
      intro hc
      exact hh2 (by rw [← hc]; exact ha)
    · rw [Bool.not_eq_true] at hv
      rw [hv] at hok
      simp at hok

/-- Witness for C8 at a concrete input: an enabled configuration with one
stored code; submitting an invalid current code makes regeneration fail
with `TwoFactorInvalid`. -/
theorem regenerate_backup_codes_requires_totp_witness :
    regenerate_backup_codes (fun s st => (s + st) % 1000000)
        { secret := 77, enabled := true, backupCodes := [{ codeHash := 5, consumed := false }] }
        0 60 [1, 2] =
      .error .twoFactorInvalid :=
  (regenerate_backup_codes_requires_totp (fun s st => (s + st) % 1000000)
      { secret := 77, enabled := true, backupCodes := [{ codeHash := 5, consumed := false }] }
      0 60 [1, 2] (by rfl)).1 (by rfl)

/-! ## Frontend: backup-code login route -/

/-- Embedded from `src/frontend/src/services/auth.ts`
(`authApi.verifyBackupCode`): the path the client posts the backup-code
login request (`temp_token` + `backup_code`) to. -/
def verifyBackupCode_request_path : String := "/auth/2fa/backup-verify"

/-- Modelled from the spec: the route the server exposes for completing
login with a backup code (`POST /auth/login/backup-code`, §6 of the
specification and the backend plan); the router code itself is absent from
the tree. -/
def login_backup_code_route : String := "/auth/login/backup-code"

/-- C9 fails on the code: the client's backup-code login function does not
post to the documented `/auth/login/backup-code` route — it posts to
`/auth/2fa/backup-verify`, a path the documented server surface does not
expose. -/
theorem verifyBackupCode_path_mismatch :
    verifyBackupCode_request_path ≠ login_backup_code_route := by
  decide

/-! ## Frontend: logout always clears local authentication state -/

/-- Client-side authentication state relevant to logout: the stored access
and refresh tokens, the React Query cache (modelled as the list of cached
query keys), and the current route. -/
structure ClientAuthState where
  accessToken : Option String
  refreshToken : Option String
  cachedQueries : List (List String)
  route : String
  deriving Repr, DecidableEq

/-- Modelled from the spec: `clearTokens` from `src/lib/api.ts` (absent
from the tree; the frontend plan documents it as the helper that removes
the stored access and refresh tokens). -/
def clearTokens (s : ClientAuthState) : ClientAuthState :=
  { s with accessToken := none, refreshToken := none }

/-- Embedded from `queryClient.clear()` as used in
`src/frontend/src/services/auth.ts`: drops all cached query state. -/
def queryClientClear (s : ClientAuthState) : ClientAuthState :=
  { s with cachedQueries := [] }

/-- Embedded from `router.push(path)` as used in
`src/frontend/src/services/auth.ts`: navigates to the given route. -/
def routerPush (path : String) (s : ClientAuthState) : ClientAuthState :=
  { s with route := path }

/-- Outcome of the server logout request observed by the mutation. -/
inductive LogoutOutcome where
  | success
  | failure
  deriving Repr, DecidableEq

/-- Embedded from `useLogout` in `src/frontend/src/services/auth.ts`
(lines 167–186): `onSuccess` runs `clearTokens()`, `queryClient.clear()`
and navigates to `/login`; the success branch additionally shows a toast;
the `onError` branch clears local state the same way even when the server
call failed. -/
def useLogout_settle : LogoutOutcome → ClientAuthState → ClientAuthState
  | .success, s => routerPush "/login" (queryClientClear (clearTokens s))
  | .failure, s => routerPush "/login" (queryClientClear (clearTokens s))

/-- C10: for every outcome of the server logout request — success or error —
the `useLogout` mutation leaves the client with no stored access or refresh
token, an empty query cache, and the route `/login`. -/
theorem useLogout_always_clears (o : LogoutOutcome) (s : ClientAuthState) :
    (useLogout_settle o s).accessToken = none ∧
      (useLogout_settle o s).refreshToken = none ∧
      (useLogout_settle o s).cachedQueries = [] ∧
      (useLogout_settle o s).route = "/login" := by
  cases o <;> exact ⟨rfl, rfl, rfl, rfl⟩

end Solvo
